import Mathlib

/-!
# Verification of the gitcache fetch/archive orchestration core

Shallow embedding of `common.go` of `continusec/gitcache`.  The Go code
shells out to `git` and touches the filesystem; we model every external
effect (stat, mkdir, `git init`, `git fetch`, `git rev-parse`,
`git archive`, file creation, stdout) through an explicit environment
record, and every model function returns, besides its result, the ordered
trace of the effects it performed and the bytes it wrote to its sink.
Machine words are `Nat` with explicit `% 2^32` where Go's `uint32`
overflows.
-/

namespace Gitcache

/-! ## SHA-256 (crypto/sha256), used by `preflightAndInit` for the cache key -/

/-- 2^32, the modulus of Go's `uint32` arithmetic inside SHA-256. -/
def M32 : Nat := 4294967296

/-- Rotate a 32-bit word right by `n` positions. -/
def rotr (n x : Nat) : Nat := ((x >>> n) ||| (x <<< (32 - n))) % M32

/-- Right shift of a 32-bit word. -/
def shr (n x : Nat) : Nat := x >>> n

def bigSigma0 (x : Nat) : Nat := (rotr 2 x) ^^^ (rotr 13 x) ^^^ (rotr 22 x)
def bigSigma1 (x : Nat) : Nat := (rotr 6 x) ^^^ (rotr 11 x) ^^^ (rotr 25 x)
def smallSigma0 (x : Nat) : Nat := (rotr 7 x) ^^^ (rotr 18 x) ^^^ (shr 3 x)
def smallSigma1 (x : Nat) : Nat := (rotr 17 x) ^^^ (rotr 19 x) ^^^ (shr 10 x)

def ch (x y z : Nat) : Nat := (x &&& y) ^^^ ((x ^^^ (M32 - 1)) &&& z)
def maj (x y z : Nat) : Nat := (x &&& y) ^^^ (x &&& z) ^^^ (y &&& z)

/-- The 64 SHA-256 round constants, in decimal. -/
def K : List Nat :=
  [1116352408, 1899447441, 3049323471, 3921009573,
   961987163, 1508970993, 2453635748, 2870763221,
   3624381080, 310598401, 607225278, 1426881987,
   1925078388, 2162078206, 2614888103, 3248222580,
   3835390401, 4022224774, 264347078, 604807628,
   770255983, 1249150122, 1555081692, 1996064986,
   2554220882, 2821834349, 2952996808, 3210313671,
   3336571891, 3584528711, 113926993, 338241895,
   666307205, 773529912, 1294757372, 1396182291,
   1695183700, 1986661051, 2177026350, 2456956037,
   2730485921, 2820302411, 3259730800, 3345764771,
   3516065817, 3600352804, 4094571909, 275423344,
   430227734, 506948616, 659060556, 883997877,
   958139571, 1322822218, 1537002063, 1747873779,
   1955562222, 2024104815, 2227730452, 2361852424,
   2428436474, 2756734187, 3204031479, 3329325298]

/-- The running hash state: eight 32-bit words. -/
structure Hash8 where
  a : Nat
  b : Nat
  c : Nat
  d : Nat
  e : Nat
  f : Nat
  g : Nat
  h : Nat
  deriving DecidableEq, Repr

/-- SHA-256 initial hash value, in decimal. -/
def h0 : Hash8 :=
  ⟨1779033703, 3144134277, 1013904242, 2773480762,
   1359893119, 2600822924, 528734635, 1541459225⟩

/-- One compression round. -/
def round (st : Hash8) (w k : Nat) : Hash8 :=
  let t1 := (st.h + bigSigma1 st.e + ch st.e st.f st.g + k + w) % M32
  let t2 := (bigSigma0 st.a + maj st.a st.b st.c) % M32
  ⟨(t1 + t2) % M32, st.a, st.b, st.c, (st.d + t1) % M32, st.e, st.f, st.g⟩

/-- The 16 big-endian words of one 64-byte block. -/
def blockWords (block : List Nat) : List Nat :=
  (List.range 16).map fun i =>
    block.getD (4 * i) 0 * 16777216 + block.getD (4 * i + 1) 0 * 65536 +
      block.getD (4 * i + 2) 0 * 256 + block.getD (4 * i + 3) 0

/-- Message schedule: extend the 16 block words to 64. -/
def schedule (ws : List Nat) : List Nat :=
  (List.range 48).foldl
    (fun acc _ =>
      let n := acc.length
      acc ++ [(smallSigma1 (acc.getD (n - 2) 0) + acc.getD (n - 7) 0 +
               smallSigma0 (acc.getD (n - 15) 0) + acc.getD (n - 16) 0) % M32])
    ws

/-- Compress one 64-byte block into the hash state. -/
def compress (st : Hash8) (block : List Nat) : Hash8 :=
  let w := schedule (blockWords block)
  let e := (List.range 64).foldl (fun s t => round s (w.getD t 0) (K.getD t 0)) st
  ⟨(st.a + e.a) % M32, (st.b + e.b) % M32, (st.c + e.c) % M32, (st.d + e.d) % M32,
   (st.e + e.e) % M32, (st.f + e.f) % M32, (st.g + e.g) % M32, (st.h + e.h) % M32⟩

/-- SHA-256 padding: append 0x80, zeros to 56 mod 64, then the 64-bit bit length. -/
def pad (msg : List Nat) : List Nat :=
  let len := msg.length
  let z := (120 - ((len + 1) % 64)) % 64
  let bits := len * 8
  msg ++ [0x80] ++ List.replicate z 0 ++
    [bits / 2 ^ 56 % 256, bits / 2 ^ 48 % 256, bits / 2 ^ 40 % 256, bits / 2 ^ 32 % 256,
     bits / 2 ^ 24 % 256, bits / 2 ^ 16 % 256, bits / 2 ^ 8 % 256, bits % 256]

/-- Split a byte list into 64-byte blocks. -/
def chunks (l : List Nat) : List (List Nat) :=
  if l = [] then [] else l.take 64 :: chunks (l.drop 64)
termination_by l.length
decreasing_by
  rename_i h
  have : l.length ≠ 0 := fun hl => h (List.length_eq_zero.mp hl)
  simp [List.length_drop]
  omega

/-- Big-endian bytes of a 32-bit word. -/
def wordBytes (w : Nat) : List Nat :=
  [w / 16777216 % 256, w / 65536 % 256, w / 256 % 256, w % 256]

/-- SHA-256 of a byte list: the 32-byte digest. -/
def sha256 (msg : List Nat) : List Nat :=
  let fin := (chunks (pad msg)).foldl compress h0
  wordBytes fin.a ++ wordBytes fin.b ++ wordBytes fin.c ++ wordBytes fin.d ++
    wordBytes fin.e ++ wordBytes fin.f ++ wordBytes fin.g ++ wordBytes fin.h

/-! ## Hex encoding (encoding/hex) and the cache key -/

/-- The lowercase hex digits, in order. -/
def hexChars : List Char := "0123456789abcdef".data

/-- The hex digit of a value below 16 (reduced mod 16 for totality). -/
def hexDigit (n : Nat) : Char := hexChars.getD (n % 16) '0'

/-- Lowercase hex rendering of a byte list, two digits per byte. -/
def hexEncode : List Nat → List Char
  | [] => []
  | b :: rest => hexDigit (b / 16) :: hexDigit (b % 16) :: hexEncode rest

/-- UTF-8 encoding of a Unicode code point, as in Go's `[]byte(string)`. -/
def utf8Bytes (c : Nat) : List Nat :=
  if c < 0x80 then [c]
  else if c < 0x800 then [0xc0 ||| (c >>> 6), 0x80 ||| (c &&& 0x3f)]
  else if c < 0x10000 then
    [0xe0 ||| (c >>> 12), 0x80 ||| ((c >>> 6) &&& 0x3f), 0x80 ||| (c &&& 0x3f)]
  else
    [0xf0 ||| (c >>> 18), 0x80 ||| ((c >>> 12) &&& 0x3f),
     0x80 ||| ((c >>> 6) &&& 0x3f), 0x80 ||| (c &&& 0x3f)]

/-- The bytes of a Go string: UTF-8 encoding of its characters. -/
def strBytes (s : String) : List Nat := s.data.flatMap fun c => utf8Bytes c.toNat

/-- The cache key of a repository identifier:
`hex.EncodeToString(sha256.Sum256([]byte(repo))[:])` from `preflightAndInit`. -/
def keyFor (repo : String) : String := ⟨hexEncode (sha256 (strBytes repo))⟩

/-! ## The effect model

Every external effect of `common.go` is mediated by an `Env` oracle and
recorded in an ordered trace of `Ev` events.  Each model function returns
its Go result together with the trace of effects it performed and (for
the archive path) the bytes it wrote to its output writer. -/

/-- Result of `os.Stat` on the workspace directory: it exists, it does not
exist (`os.IsNotExist`), or some other filesystem error `e`. -/
inductive StatRes where
  | found : StatRes
  | notFound : StatRes
  | otherErr : Nat → StatRes
  deriving DecidableEq, Repr

/-- One tar header as read by `tar.Reader.Next`; only the fields the code
touches (`Size`, `ModTime`) plus the entry name are modelled. -/
structure Header where
  name : String
  size : Nat
  modTime : Nat
  deriving DecidableEq, Repr

/-- One entry of the `git archive` tar stream: a header and the content
bytes actually available on the pipe (which may be fewer than
`header.size` if the stream is truncated). -/
structure RawEntry where
  header : Header
  content : List Nat
  deriving DecidableEq, Repr

/-- One run of the `git archive` subprocess as observed by
`sendDownstream`: a possible `StdoutPipe`/`Start` failure, the entries the
tar reader yields, a possible non-EOF reader error after them, and the
`cmd.Wait` exit status. -/
structure ArchiveRun where
  startErr : Option Nat
  entries : List RawEntry
  readErr : Option Nat
  waitErr : Option Nat
  deriving DecidableEq, Repr

/-- The external world: results of each filesystem / subprocess
operation.  `archive n` is the `git archive` run observed by the `n`-th
`sendDownstream` call of the request (0-based). -/
structure Env where
  stat : StatRes
  mkdirErr : Option Nat
  gitInitErr : Option Nat
  fetchErr : Option Nat
  revParseRes : Except Nat String
  archive : Nat → ArchiveRun
  createErr : Option Nat

/-- Effect events, in the order the Go code performs them. -/
inductive Ev where
  | stat : Ev
  | mkdir : Ev
  | gitInit : Ev
  | fetch : Ev
  | revParse : Ev
  | archiveCall : Ev
  | createFile : Ev
  deriving DecidableEq, Repr

/-- Errors returned by the core, one constructor per `return err` site. -/
inductive Err where
  | noRepo : Err
  | noBranch : Err
  | noFormat : Err
  | badFormat : Err
  | statFail : Nat → Err
  | mkdirFail : Nat → Err
  | gitInitFail : Nat → Err
  | fetchFail : Nat → Err
  | revParseFail : Nat → Err
  | startFail : Nat → Err
  | readFail : Nat → Err
  | exitFail : Nat → Err
  | shortCopy : Err
  | createFail : Nat → Err
  deriving DecidableEq, Repr

/-- `fetchUpstream`: runs `git fetch repo +branch:branch`; its result is
the subprocess exit status from the environment. -/
def fetchUpstream (env : Env) : Except Err Unit × List Ev :=
  (match env.fetchErr with
   | some e => .error (.fetchFail e)
   | none => .ok (), [.fetch])

/-! ## sendDownstream (the ArchiveStreamer) -/

/-- The end-of-archive trailer `tar.Writer.Close` flushes: two 512-byte
zero blocks. -/
def tarTrailer : List Nat := List.replicate 1024 0

/-- Serialization of one tar header block by `tar.Writer.WriteHeader`,
abstracted as an injective encoding of the fields the model carries. -/
def serializeHeader (h : Header) : List Nat :=
  h.name.length :: (h.name.data.map Char.toNat) ++ [h.size, h.modTime]

/-- The entry loop of `sendDownstream`.  For each entry the modification
time is reset to `time.Unix(0,0)`, the header is re-emitted, and
`io.CopyN` copies `header.Size` bytes; `CopyN` returns an error exactly
when the source ran short.  The deferred `tarOut.Close()` flushes the
end-of-archive trailer only when the writer's current entry is complete
(the EOF, reader-error, and exit-status paths); after a short copy the
current entry has unwritten bytes, `Close`'s internal flush fails with
its "missed writing" error, and no trailer reaches the output.  On EOF
the result is `cmd.Wait`'s status, after a possible non-EOF reader
error. -/
def copyEntries : List RawEntry → Option Nat → Option Nat → Except Err Unit × List Nat
  | [], readErr, waitErr =>
    (match readErr with
     | some e => .error (.readFail e)
     | none =>
       match waitErr with
       | some e => .error (.exitFail e)
       | none => .ok (), tarTrailer)
  | entry :: rest, readErr, waitErr =>
    let hdr : Header := { entry.header with modTime := 0 }
    let hb := serializeHeader hdr
    let written := min entry.content.length entry.header.size
    let copied := entry.content.take entry.header.size
    if entry.content.length < entry.header.size then
      -- io.CopyN returned err != nil (short source); the deferred Close
      -- cannot flush the incomplete entry, so no trailer is emitted
      (.error .shortCopy, hb ++ copied)
    else if written ≠ entry.header.size then
      -- `return err` with err == nil: unreachable given CopyN's contract
      (.ok (), hb ++ copied)
    else
      let res := copyEntries rest readErr waitErr
      (res.1, hb ++ copied ++ res.2)

/-- `sendDownstream`: spawns `git archive --format tar commit:tree` and
re-emits its tar stream with all modification times zeroed.  Returns the
Go error result and the bytes written to `out`. -/
def sendDownstream (run : ArchiveRun) : Except Err Unit × List Nat :=
  match run.startErr with
  | some e => (.error (.startFail e), [])
  | none => copyEntries run.entries run.readErr run.waitErr

/-! ## getHeadCommit and preflightAndInit -/

/-- `strings.TrimSpace`: drop leading and trailing whitespace
characters. -/
def trimSpace (s : String) : String :=
  ⟨((s.data.dropWhile Char.isWhitespace).reverse.dropWhile Char.isWhitespace).reverse⟩

/-- `getHeadCommit`: fetch upstream, then `git rev-parse branch`, its
output trimmed of surrounding whitespace. -/
def getHeadCommit (env : Env) : Except Err String × List Ev :=
  match env.fetchErr with
  | some e => (.error (.fetchFail e), [.fetch])
  | none =>
    match env.revParseRes with
    | .error e => (.error (.revParseFail e), [.fetch, .revParse])
    | .ok out => (.ok (trimSpace out), [.fetch, .revParse])

/-- `path.Join` / `filepath.Join`, abstracted as separator insertion. -/
def joinPath (a b : String) : String := a ++ "/" ++ b

/-- `preflightAndInit`: validate the request fields, then ensure the
workspace directory `<cacheDir>/<sha256-hex(repo)>` exists, creating and
`git init --bare`-ing it when the stat reports not-found. -/
def preflightAndInit (repo branch format cacheDir : String) (env : Env) :
    Except Err String × List Ev :=
  if repo.length = 0 then (.error .noRepo, [])
  else if branch.length = 0 then (.error .noBranch, [])
  else if format.length = 0 then (.error .noFormat, [])
  else if format ≠ "tar" ∧ format ≠ "tgz" then (.error .badFormat, [])
  else
    let gd := joinPath cacheDir (keyFor repo)
    match env.stat with
    | .found => (.ok gd, [.stat])
    | .notFound =>
      match env.mkdirErr with
      | some e => (.error (.mkdirFail e), [.stat, .mkdir])
      | none =>
        match env.gitInitErr with
        | some e => (.error (.gitInitFail e), [.stat, .mkdir, .gitInit])
        | none => (.ok gd, [.stat, .mkdir, .gitInit])
    | .otherErr e => (.error (.statFail e), [.stat])

/-! ## FetchLatest (the FetchOrchestrator) -/

/-- The gzip compression layer (`compress/gzip`), abstracted as a
deterministic function of the uncompressed bytes: a fixed magic prefix
followed by the payload.  Only its determinism and injectivity in the
payload matter to the claims. -/
def gzipBytes (l : List Nat) : List Nat := 31 :: 139 :: l

/-- Bytes as they reach the selected sink: wrapped in the gzip layer when
the format is `tgz`, raw otherwise. -/
def sinkBytes (format : String) (l : List Nat) : List Nat :=
  if format = "tgz" then gzipBytes l else l

instance {ε α : Type} [DecidableEq ε] [DecidableEq α] : DecidableEq (Except ε α) := fun a b =>
  match a, b with
  | .ok x, .ok y => decidable_of_iff (x = y) (by simp)
  | .error x, .error y => decidable_of_iff (x = y) (by simp)
  | .ok _, .error _ => isFalse (by simp)
  | .error _, .ok _ => isFalse (by simp)

/-- The observable outcome of one `FetchLatest` call: the Go error
result, the ordered trace of external effects, the bytes written to the
caller-supplied writer, the file created under the output directory (path
and bytes), and the strings written to `os.Stdout`. -/
structure FLResult where
  res : Except Err Unit
  trace : List Ev
  streamOut : List Nat
  fileOut : Option (String × List Nat)
  stdout : List String
  deriving DecidableEq, Repr

/-- The optimistic-attempt / fetch-and-retry-once tail of `FetchLatest`:
try `sendDownstream`; on success done; on failure, if `haveFetched` the
error is terminal, otherwise fetch upstream once (its failure terminal)
and retry `sendDownstream` exactly once, its result final.  Returns the
result, the effect trace of this phase, and the tar bytes written. -/
def archivePhase (haveFetched : Bool) (env : Env) :
    Except Err Unit × List Ev × List Nat :=
  let p0 := sendDownstream (env.archive 0)
  match p0.1 with
  | .ok _ => (.ok (), [.archiveCall], p0.2)
  | .error e0 =>
    if haveFetched then (.error e0, [.archiveCall], p0.2)
    else
      match env.fetchErr with
      | some fe => (.error (.fetchFail fe), [.archiveCall, .fetch], p0.2)
      | none =>
        let p1 := sendDownstream (env.archive 1)
        (p1.1, [.archiveCall, .fetch, .archiveCall], p0.2 ++ p1.2)

/-- `FetchLatest`: preflight and workspace init; resolve the commit via
`getHeadCommit` when none was supplied (recording `haveFetched`); select
the output sink (`<outputDir>/<commit>.<format>` announced on stdout and
created, or the caller's writer); interpose gzip for `tgz`; then the
optimistic archive attempt with a single fetch-and-retry. -/
def FetchLatest (repo branch commit tree format cacheDir outputDir : String)
    (env : Env) : FLResult :=
  match preflightAndInit repo branch format cacheDir env with
  | (.error e, tr) => ⟨.error e, tr, [], none, []⟩
  | (.ok _gd, tr0) =>
    match (if commit.length = 0 then
             match getHeadCommit env with
             | (.error e, tr1) => (Except.error e, tr1)
             | (.ok c, tr1) => (Except.ok (c, true), tr1)
           else (Except.ok (commit, false), ([] : List Ev))) with
    | (.error e, tr1) => ⟨.error e, tr0 ++ tr1, [], none, []⟩
    | (.ok (c, haveFetched), tr1) =>
      if outputDir.length = 0 then
        let ap := archivePhase haveFetched env
        ⟨ap.1, tr0 ++ tr1 ++ ap.2.1, sinkBytes format ap.2.2, none, []⟩
      else
        let fpath := joinPath outputDir (c ++ "." ++ format)
        match env.createErr with
        | some e => ⟨.error (.createFail e), tr0 ++ tr1 ++ [.createFile], [], none, [fpath]⟩
        | none =>
          let ap := archivePhase haveFetched env
          ⟨ap.1, tr0 ++ tr1 ++ [.createFile] ++ ap.2.1, [],
            some (fpath, sinkBytes format ap.2.2), [fpath]⟩

/-- Precondition under which `preflightAndInit`'s workspace phase
succeeds: the directory exists, or it is created and initialized without
error. -/
def preflightOk (env : Env) : Prop :=
  env.stat = .found ∨ (env.stat = .notFound ∧ env.mkdirErr = none ∧ env.gitInitErr = none)

instance (env : Env) : Decidable (preflightOk env) := by
  unfold preflightOk
  infer_instance

/-! ## Helper lemmas -/

theorem hexDigit_mem (n : Nat) : hexDigit n ∈ hexChars := by
  unfold hexDigit
  have h : n % 16 < 16 := Nat.mod_lt _ (by norm_num)
  generalize n % 16 = m at h ⊢
  interval_cases m <;> decide

theorem hexEncode_length (l : List Nat) : (hexEncode l).length = 2 * l.length := by
  induction l with
  | nil => rfl
  | cons b rest ih => simp [hexEncode, ih]; ring

theorem hexEncode_mem (l : List Nat) : ∀ c ∈ hexEncode l, c ∈ hexChars := by
  induction l with
  | nil => intro c hc; cases hc
  | cons b rest ih =>
    intro c hc
    simp only [hexEncode, List.mem_cons] at hc
    rcases hc with rfl | rfl | hc
    · exact hexDigit_mem _
    · exact hexDigit_mem _
    · exact ih c hc

theorem sha256_length (msg : List Nat) : (sha256 msg).length = 32 := by
  simp [sha256, wordBytes]

theorem preflight_ok_dir {repo branch format cacheDir : String} {env : Env} {d : String}
    (h : (preflightAndInit repo branch format cacheDir env).1 = .ok d) :
    d = joinPath cacheDir (keyFor repo) := by
  unfold preflightAndInit at h
  repeat' split at h
  all_goals simp_all

/-! ## The claims -/

/-- **C7** — Cache-key mapping: `keyFor` is a pure, total Lean function
of the identifier string (hence identical identifiers always yield
identical keys and there is no I/O and no failure mode); its value is a
64-character string, every character is a lowercase hexadecimal digit,
and no character is a path separator. -/
theorem keyFor_is_fixed_length_hex (s : String) :
    (keyFor s).length = 64 ∧
    (∀ c ∈ (keyFor s).data, c ∈ hexChars) ∧
    (∀ c ∈ (keyFor s).data, c ≠ '/') := by
  refine ⟨?_, ?_, ?_⟩
  · show (hexEncode (sha256 (strBytes s))).length = 64
    rw [hexEncode_length, sha256_length]
  · intro c hc
    exact hexEncode_mem _ c hc
  · intro c hc heq
    have := hexEncode_mem _ c hc
    rw [heq] at this
    exact absurd this (by decide)

/-- Witness for C7: the key of a concrete identifier has length 64 and
its first character is not a path separator. -/
theorem keyFor_witness :
    (keyFor "https://example.test/repo.git").length = 64 ∧
      ('a' ∈ (keyFor "https://example.test/repo.git").data →
        'a' ∈ hexChars) :=
  ⟨(keyFor_is_fixed_length_hex "https://example.test/repo.git").1,
   (keyFor_is_fixed_length_hex "https://example.test/repo.git").2.1 'a'⟩

/-- **C10** — Implicit: the workspace directory depends only on
`(cacheDir, repo)`: two `preflightAndInit` calls with the same `cacheDir`
and `repo` that differ in branch, format, or even the observed
environment resolve, when they succeed, to the same directory. -/
theorem preflight_dir_depends_only_on_cacheDir_repo
    (repo b1 f1 b2 f2 cacheDir : String) (env env' : Env) (d1 d2 : String)
    (h1 : (preflightAndInit repo b1 f1 cacheDir env).1 = .ok d1)
    (h2 : (preflightAndInit repo b2 f2 cacheDir env').1 = .ok d2) :
    d1 = d2 := by
  rw [preflight_ok_dir h1, preflight_ok_dir h2]

/-- Witness for C10: a concrete successful pair of calls differing in
branch and format resolves to one and the same directory. -/
theorem preflight_dir_witness :
    joinPath "/cache" (keyFor "https://example.test/repo.git") =
      joinPath "/cache" (keyFor "https://example.test/repo.git") :=
  preflight_dir_depends_only_on_cacheDir_repo
    "https://example.test/repo.git" "main" "tar" "dev" "tgz" "/cache"
    ⟨.found, none, none, none, .ok "c", fun _ => ⟨none, [], none, none⟩, none⟩
    ⟨.found, none, none, none, .ok "c", fun _ => ⟨none, [], none, none⟩, none⟩
    _ _ rfl rfl

/-- Zero the modification time of an entry, keeping all other data. -/
def stripTime (e : RawEntry) : RawEntry := { e with header := { e.header with modTime := 0 } }

/-- Two archive runs that represent the same mirror state at the same
`(commit, subtree)`: they agree on everything except, possibly, the
modification times of their entries. -/
def sameModuloTime (r1 r2 : ArchiveRun) : Prop :=
  r1.startErr = r2.startErr ∧ r1.entries.map stripTime = r2.entries.map stripTime ∧
    r1.readErr = r2.readErr ∧ r1.waitErr = r2.waitErr

instance (r1 r2 : ArchiveRun) : Decidable (sameModuloTime r1 r2) := by
  unfold sameModuloTime
  infer_instance

theorem copyEntries_congr :
    ∀ l1 l2 : List RawEntry, ∀ re we : Option Nat,
      l1.map stripTime = l2.map stripTime →
      copyEntries l1 re we = copyEntries l2 re we := by
  intro l1
  induction l1 with
  | nil =>
    intro l2 re we h
    cases l2 with
    | nil => rfl
    | cons e2 t2 => simp at h
  | cons e1 t1 ih =>
    intro l2 re we h
    cases l2 with
    | nil => simp at h
    | cons e2 t2 =>
      simp only [List.map_cons, List.cons.injEq] at h
      obtain ⟨h1, h2⟩ := h
      have hname : e1.header.name = e2.header.name := congrArg (fun x => x.header.name) h1
      have hsize : e1.header.size = e2.header.size := congrArg (fun x => x.header.size) h1
      have hcont : e1.content = e2.content := congrArg (fun x => x.content) h1
      simp only [copyEntries, hname, hsize, hcont, ih t2 re we h2]

/-- **C1** — Determinism of the archive path: for a fixed mirror state,
commit and subtree (two `git archive` runs that can differ only in the
modification times of their entries), `sendDownstream` produces
byte-identical output and the same result, because every entry's
modification time is rewritten to the epoch sentinel before
re-emission. -/
theorem sendDownstream_deterministic (r1 r2 : ArchiveRun)
    (h : sameModuloTime r1 r2) :
    sendDownstream r1 = sendDownstream r2 := by
  obtain ⟨hs, he, hr, hw⟩ := h
  unfold sendDownstream
  rw [hs, hr, hw]
  cases r2.startErr with
  | some e => rfl
  | none => exact copyEntries_congr _ _ _ _ he

/-- Witness for C1: two concrete runs whose single entry differs only in
its modification time yield byte-identical output. -/
theorem sendDownstream_deterministic_witness :
    sendDownstream ⟨none, [⟨⟨"f", 2, 7⟩, [10, 20]⟩], none, none⟩ =
      sendDownstream ⟨none, [⟨⟨"f", 2, 99⟩, [10, 20]⟩], none, none⟩ :=
  sendDownstream_deterministic
    ⟨none, [⟨⟨"f", 2, 7⟩, [10, 20]⟩], none, none⟩
    ⟨none, [⟨⟨"f", 2, 99⟩, [10, 20]⟩], none, none⟩
    (by decide)

theorem copyEntries_short :
    ∀ l : List RawEntry, ∀ re we : Option Nat,
      (∃ e ∈ l, e.content.length < e.header.size) →
      (copyEntries l re we).1 = .error .shortCopy := by
  intro l
  induction l with
  | nil =>
    intro re we h
    simp at h
  | cons e1 t1 ih =>
    intro re we h
    by_cases hshort : e1.content.length < e1.header.size
    · simp [copyEntries, hshort]
    · have h1 : ∃ e ∈ t1, e.content.length < e.header.size := by
        rcases h with ⟨e, he, hlt⟩
        rcases List.mem_cons.mp he with rfl | he
        · exact absurd hlt hshort
        · exact ⟨e, he, hlt⟩
      have hmin : min e1.content.length e1.header.size = e1.header.size :=
        Nat.min_eq_right (Nat.le_of_not_lt hshort)
      simp [copyEntries, hshort, hmin, ih re we h1]

theorem copyEntries_ok_sizes :
    ∀ l : List RawEntry, ∀ re we : Option Nat,
      (copyEntries l re we).1 = .ok () →
      ∀ e ∈ l, e.header.size ≤ e.content.length := by
  intro l
  induction l with
  | nil => intro re we _ e he; cases he
  | cons e1 t1 ih =>
    intro re we h e he
    by_cases hshort : e1.content.length < e1.header.size
    · simp [copyEntries, hshort] at h
    · rcases List.mem_cons.mp he with rfl | he
      · exact Nat.le_of_not_lt hshort
      · have hmin : min e1.content.length e1.header.size = e1.header.size :=
          Nat.min_eq_right (Nat.le_of_not_lt hshort)
        simp [copyEntries, hshort, hmin] at h
        exact ih re we h e he

/-- **C6** — Short-copy fatality: with the subprocess started, if any
entry's available content is shorter than its declared `Size`,
`sendDownstream` returns the short-copy error rather than success; and
whenever it returns success, every entry's declared size was available,
so exactly `header.Size` bytes were copied for each entry. -/
theorem sendDownstream_short_copy_fatal (run : ArchiveRun)
    (h0 : run.startErr = none) :
    ((∃ e ∈ run.entries, e.content.length < e.header.size) →
      (sendDownstream run).1 = .error .shortCopy) ∧
    ((sendDownstream run).1 = .ok () →
      ∀ e ∈ run.entries, min e.content.length e.header.size = e.header.size) := by
  constructor
  · intro h
    unfold sendDownstream
    rw [h0]
    exact copyEntries_short _ _ _ h
  · intro h e he
    unfold sendDownstream at h
    rw [h0] at h
    exact Nat.min_eq_right (copyEntries_ok_sizes _ _ _ h e he)

/-- Witness for C6: a concrete truncated run (one byte available of two
declared) makes `sendDownstream` fail with the short-copy error. -/
theorem sendDownstream_short_copy_witness :
    (sendDownstream ⟨none, [⟨⟨"f", 2, 0⟩, [10]⟩], none, none⟩).1 = .error .shortCopy :=
  (sendDownstream_short_copy_fatal ⟨none, [⟨⟨"f", 2, 0⟩, [10]⟩], none, none⟩ rfl).1
    (by decide)

/-- **C5** — Head resolution: `getHeadCommit` always calls
`fetchUpstream` first (its trace starts with the fetch, regardless of
local state); a fetch failure is returned with no rev-parse and no commit
id; on fetch success the branch is resolved via rev-parse, a rev-parse
failure is returned with no commit id, and on success the commit id is
returned with surrounding whitespace trimmed. -/
theorem getHeadCommit_spec (env : Env) :
    (getHeadCommit env).2.head? = some .fetch ∧
    (∀ e, env.fetchErr = some e →
      getHeadCommit env = (.error (.fetchFail e), [.fetch])) ∧
    (∀ e, env.fetchErr = none → env.revParseRes = .error e →
      getHeadCommit env = (.error (.revParseFail e), [.fetch, .revParse])) ∧
    (∀ s, env.fetchErr = none → env.revParseRes = .ok s →
      getHeadCommit env = (.ok (trimSpace s), [.fetch, .revParse])) := by
  refine ⟨?_, ?_, ?_, ?_⟩
  · unfold getHeadCommit
    cases env.fetchErr with
    | some e => rfl
    | none => cases env.revParseRes <;> rfl
  · intro e he
    simp [getHeadCommit, he]
  · intro e hf hr
    simp [getHeadCommit, hf, hr]
  · intro s hf hr
    simp [getHeadCommit, hf, hr]

/-- Witness for C5: in an environment whose fetch succeeds and whose
rev-parse prints a commit id with a trailing newline, `getHeadCommit`
returns the trimmed id after fetching then rev-parsing. -/
theorem getHeadCommit_witness :
    getHeadCommit ⟨.found, none, none, none, .ok "abc123\n", fun _ => ⟨none, [], none, none⟩, none⟩ =
      (.ok "abc123", [.fetch, .revParse]) := by
  rw [(getHeadCommit_spec _).2.2.2 "abc123\n" rfl rfl]
  decide

/-- **C4** — Workspace ensuring: when the stat reports not-found, the
directory is created and initialized as a bare mirror, and a creation or
init failure is returned; when the directory exists it is returned as-is
with only the stat in the trace (no re-validation); a stat error other
than not-found is propagated. -/
theorem preflight_workspace_ensuring (repo branch format cacheDir : String) (env : Env)
    (hr : repo.length ≠ 0) (hb : branch.length ≠ 0)
    (hf : format = "tar" ∨ format = "tgz") :
    (env.stat = .found →
      preflightAndInit repo branch format cacheDir env =
        (.ok (joinPath cacheDir (keyFor repo)), [.stat])) ∧
    (env.stat = .notFound → env.mkdirErr = none → env.gitInitErr = none →
      preflightAndInit repo branch format cacheDir env =
        (.ok (joinPath cacheDir (keyFor repo)), [.stat, .mkdir, .gitInit])) ∧
    (∀ e, env.stat = .notFound → env.mkdirErr = some e →
      preflightAndInit repo branch format cacheDir env =
        (.error (.mkdirFail e), [.stat, .mkdir])) ∧
    (∀ e, env.stat = .notFound → env.mkdirErr = none → env.gitInitErr = some e →
      preflightAndInit repo branch format cacheDir env =
        (.error (.gitInitFail e), [.stat, .mkdir, .gitInit])) ∧
    (∀ e, env.stat = .otherErr e →
      preflightAndInit repo branch format cacheDir env =
        (.error (.statFail e), [.stat])) := by
  refine ⟨?_, ?_, ?_, ?_, ?_⟩ <;>
    rcases hf with rfl | rfl <;> intros <;> simp_all [preflightAndInit] <;> decide

/-- Witness for C4: on a fresh cache (stat not-found) with mkdir and init
succeeding, the workspace is created, initialized, and returned. -/
theorem preflight_workspace_witness :
    preflightAndInit "r" "b" "tar" "/cache"
        ⟨.notFound, none, none, none, .ok "c", fun _ => ⟨none, [], none, none⟩, none⟩ =
      (.ok (joinPath "/cache" (keyFor "r")), [.stat, .mkdir, .gitInit]) :=
  (preflight_workspace_ensuring "r" "b" "tar" "/cache" _
      (by decide) (by decide) (Or.inl rfl)).2.1 rfl rfl rfl

/-- **C3** — Validation precedes all effects: for every request with
empty repo, empty branch, or a format outside {tar, tgz}, `FetchLatest`
returns a validation error with an empty effect trace (no stat, no
directory creation, no git subprocess, no file created, no bytes written,
nothing announced). -/
theorem FetchLatest_validation_no_effects
    (repo branch commit tree format cacheDir outputDir : String) (env : Env)
    (h : repo.length = 0 ∨ branch.length = 0 ∨ (format ≠ "tar" ∧ format ≠ "tgz")) :
    ∃ e, FetchLatest repo branch commit tree format cacheDir outputDir env =
        ⟨.error e, [], [], none, []⟩ ∧
      (e = .noRepo ∨ e = .noBranch ∨ e = .noFormat ∨ e = .badFormat) := by
  have hpre : ∃ e, preflightAndInit repo branch format cacheDir env = (.error e, []) ∧
      (e = .noRepo ∨ e = .noBranch ∨ e = .noFormat ∨ e = .badFormat) := by
    by_cases h1 : repo.length = 0
    · exact ⟨.noRepo, by simp [preflightAndInit, h1], by simp⟩
    · by_cases h2 : branch.length = 0
      · exact ⟨.noBranch, by simp [preflightAndInit, h1, h2], by simp⟩
      · have h3 : format ≠ "tar" ∧ format ≠ "tgz" := by tauto
        by_cases h4 : format.length = 0
        · exact ⟨.noFormat, by simp [preflightAndInit, h1, h2, h4], by simp⟩
        · exact ⟨.badFormat, by simp [preflightAndInit, h1, h2, h4, h3], by simp⟩
  obtain ⟨e, hpe, hcase⟩ := hpre
  exact ⟨e, by simp [FetchLatest, hpe], hcase⟩

/-- Witness for C3: a request with a bad format is rejected with the
bad-format error and performs no effect at all. -/
theorem FetchLatest_validation_witness :
    FetchLatest "r" "b" "" "" "zip" "/cache" ""
        ⟨.found, none, none, none, .ok "c", fun _ => ⟨none, [], none, none⟩, none⟩ =
      ⟨.error .badFormat, [], [], none, []⟩ := by
  obtain ⟨e, heq, hcase⟩ := FetchLatest_validation_no_effects "r" "b" "" "" "zip" "/cache" ""
    ⟨.found, none, none, none, .ok "c", fun _ => ⟨none, [], none, none⟩, none⟩
    (Or.inr (Or.inr (by decide)))
  have : e = .badFormat := by
    have h1 : (FetchLatest "r" "b" "" "" "zip" "/cache" ""
        ⟨.found, none, none, none, .ok "c", fun _ => ⟨none, [], none, none⟩, none⟩).res =
        .error .badFormat := by decide
    rw [heq] at h1
    simpa using h1
  rw [this] at heq
  exact heq

/-- The effect trace of a successful `preflightAndInit` workspace phase. -/
def preflightTrace (env : Env) : List Ev :=
  if env.stat = .found then [.stat] else [.stat, .mkdir, .gitInit]

theorem preflight_ok_cases (repo branch format cacheDir : String) (env : Env)
    (hr : repo.length ≠ 0) (hb : branch.length ≠ 0)
    (hf : format = "tar" ∨ format = "tgz") (hpre : preflightOk env) :
    preflightAndInit repo branch format cacheDir env =
      (.ok (joinPath cacheDir (keyFor repo)), preflightTrace env) := by
  rcases hpre with hst | ⟨hst, hmk, hgi⟩
  · rw [(preflight_workspace_ensuring repo branch format cacheDir env hr hb hf).1 hst]
    simp [preflightTrace, hst]
  · rw [(preflight_workspace_ensuring repo branch format cacheDir env hr hb hf).2.1 hst hmk hgi]
    simp [preflightTrace, hst]

theorem archivePhase_first_ok (hf : Bool) (env : Env)
    (h : (sendDownstream (env.archive 0)).1 = .ok ()) :
    archivePhase hf env = (.ok (), [.archiveCall], (sendDownstream (env.archive 0)).2) := by
  simp [archivePhase, h]

theorem archivePhase_haveFetched_err (env : Env) (e0 : Err)
    (h : (sendDownstream (env.archive 0)).1 = .error e0) :
    archivePhase true env = (.error e0, [.archiveCall], (sendDownstream (env.archive 0)).2) := by
  simp [archivePhase, h]

theorem archivePhase_fetch_fails (env : Env) (e0 : Err) (fe : Nat)
    (h : (sendDownstream (env.archive 0)).1 = .error e0)
    (hfe : env.fetchErr = some fe) :
    archivePhase false env =
      (.error (.fetchFail fe), [.archiveCall, .fetch], (sendDownstream (env.archive 0)).2) := by
  simp [archivePhase, h, hfe]

theorem archivePhase_retry (env : Env) (e0 : Err)
    (h : (sendDownstream (env.archive 0)).1 = .error e0)
    (hfe : env.fetchErr = none) :
    archivePhase false env =
      ((sendDownstream (env.archive 1)).1, [.archiveCall, .fetch, .archiveCall],
       (sendDownstream (env.archive 0)).2 ++ (sendDownstream (env.archive 1)).2) := by
  simp [archivePhase, h, hfe]

theorem preflightTrace_counts (env : Env) :
    (preflightTrace env).count Ev.fetch = 0 ∧
    (preflightTrace env).count Ev.archiveCall = 0 := by
  unfold preflightTrace
  split <;> exact ⟨by decide, by decide⟩

theorem archivePhase_trace_counts (hf : Bool) (env : Env) :
    (archivePhase hf env).2.1.count Ev.fetch ≤ 1 ∧
    (archivePhase hf env).2.1.count Ev.archiveCall ≤ 2 ∧
    (hf = true → (archivePhase hf env).2.1.count Ev.fetch = 0) := by
  rcases h : (sendDownstream (env.archive 0)).1 with e0 | u
  · cases hf
    · rcases hfe : env.fetchErr with _ | fe
      · rw [archivePhase_retry env e0 h hfe]
        refine ⟨?_, ?_, fun hh => by cases hh⟩
        · show List.count Ev.fetch [Ev.archiveCall, Ev.fetch, Ev.archiveCall] ≤ 1
          decide
        · show List.count Ev.archiveCall [Ev.archiveCall, Ev.fetch, Ev.archiveCall] ≤ 2
          decide
      · rw [archivePhase_fetch_fails env e0 fe h hfe]
        refine ⟨?_, ?_, fun hh => by cases hh⟩
        · show List.count Ev.fetch [Ev.archiveCall, Ev.fetch] ≤ 1
          decide
        · show List.count Ev.archiveCall [Ev.archiveCall, Ev.fetch] ≤ 2
          decide
    · rw [archivePhase_haveFetched_err env e0 h]
      refine ⟨?_, ?_, fun _ => ?_⟩
      · show List.count Ev.fetch [Ev.archiveCall] ≤ 1
        decide
      · show List.count Ev.archiveCall [Ev.archiveCall] ≤ 2
        decide
      · show List.count Ev.fetch [Ev.archiveCall] = 0
        decide
  · cases u
    rw [archivePhase_first_ok hf env h]
    refine ⟨?_, ?_, fun _ => ?_⟩
    · show List.count Ev.fetch [Ev.archiveCall] ≤ 1
      decide
    · show List.count Ev.archiveCall [Ev.archiveCall] ≤ 2
      decide
    · show List.count Ev.fetch [Ev.archiveCall] = 0
      decide

/-- The `FetchLatest` outcome when a commit was supplied and the
preflight succeeds: the archive phase runs with `haveFetched = false`,
and its output is routed to the stream or to the announced file. -/
theorem FetchLatest_eq_commit_given
    (repo branch commit tree format cacheDir outputDir : String) (env : Env)
    (hr : repo.length ≠ 0) (hb : branch.length ≠ 0)
    (hf : format = "tar" ∨ format = "tgz") (hpre : preflightOk env)
    (hc : commit.length ≠ 0) :
    FetchLatest repo branch commit tree format cacheDir outputDir env =
      if outputDir.length = 0 then
        ⟨(archivePhase false env).1, preflightTrace env ++ (archivePhase false env).2.1,
         sinkBytes format (archivePhase false env).2.2, none, []⟩
      else
        match env.createErr with
        | some e =>
          ⟨.error (.createFail e), preflightTrace env ++ [.createFile], [], none,
           [joinPath outputDir (commit ++ "." ++ format)]⟩
        | none =>
          ⟨(archivePhase false env).1,
           preflightTrace env ++ [.createFile] ++ (archivePhase false env).2.1, [],
           some (joinPath outputDir (commit ++ "." ++ format),
                 sinkBytes format (archivePhase false env).2.2),
           [joinPath outputDir (commit ++ "." ++ format)]⟩ := by
  have hpf := preflight_ok_cases repo branch format cacheDir env hr hb hf hpre
  have hstep : (if commit.length = 0 then
        match getHeadCommit env with
        | (.error e, tr1) => (Except.error e, tr1)
        | (.ok c, tr1) => (Except.ok (c, true), tr1)
      else (Except.ok (commit, false), ([] : List Ev))) =
      (Except.ok (commit, false), ([] : List Ev)) := if_neg hc
  unfold FetchLatest
  rw [hpf, hstep]
  by_cases ho : outputDir.length = 0
  · simp [ho]
  · rcases hce : env.createErr with _ | e <;> simp [ho, hce]

/-- The `FetchLatest` outcome when no commit was supplied and both the
preflight and the head resolution succeed: the archive phase runs with
`haveFetched = true` on the resolved (trimmed) commit. -/
theorem FetchLatest_eq_commit_resolved
    (repo branch commit tree format cacheDir outputDir : String) (env : Env)
    (hr : repo.length ≠ 0) (hb : branch.length ≠ 0)
    (hf : format = "tar" ∨ format = "tgz") (hpre : preflightOk env)
    (hc : commit.length = 0) (hfe : env.fetchErr = none)
    (s : String) (hrv : env.revParseRes = .ok s) :
    FetchLatest repo branch commit tree format cacheDir outputDir env =
      if outputDir.length = 0 then
        ⟨(archivePhase true env).1,
         preflightTrace env ++ [.fetch, .revParse] ++ (archivePhase true env).2.1,
         sinkBytes format (archivePhase true env).2.2, none, []⟩
      else
        match env.createErr with
        | some e =>
          ⟨.error (.createFail e), preflightTrace env ++ [.fetch, .revParse] ++ [.createFile],
           [], none, [joinPath outputDir (trimSpace s ++ "." ++ format)]⟩
        | none =>
          ⟨(archivePhase true env).1,
           preflightTrace env ++ [.fetch, .revParse] ++ [.createFile] ++ (archivePhase true env).2.1,
           [],
           some (joinPath outputDir (trimSpace s ++ "." ++ format),
                 sinkBytes format (archivePhase true env).2.2),
           [joinPath outputDir (trimSpace s ++ "." ++ format)]⟩ := by
  have hpf := preflight_ok_cases repo branch format cacheDir env hr hb hf hpre
  have hgh : getHeadCommit env = (.ok (trimSpace s), [.fetch, .revParse]) := by
    simp [getHeadCommit, hfe, hrv]
  have hstep : (if commit.length = 0 then
        match getHeadCommit env with
        | (.error e, tr1) => (Except.error e, tr1)
        | (.ok c, tr1) => (Except.ok (c, true), tr1)
      else (Except.ok (commit, false), ([] : List Ev))) =
      (Except.ok ((trimSpace s), true), [Ev.fetch, Ev.revParse]) := by
    rw [if_pos hc, hgh]
  unfold FetchLatest
  rw [hpf, hstep]

/-- The `FetchLatest` outcome when no commit was supplied and the head
resolution fails: terminal, with no archive attempt and no sink. -/
theorem FetchLatest_eq_resolve_fails
    (repo branch commit tree format cacheDir outputDir : String) (env : Env)
    (hr : repo.length ≠ 0) (hb : branch.length ≠ 0)
    (hf : format = "tar" ∨ format = "tgz") (hpre : preflightOk env)
    (hc : commit.length = 0) (e : Err) (tr1 : List Ev)
    (hgh : getHeadCommit env = (.error e, tr1)) :
    FetchLatest repo branch commit tree format cacheDir outputDir env =
      ⟨.error e, preflightTrace env ++ tr1, [], none, []⟩ := by
  have hpf := preflight_ok_cases repo branch format cacheDir env hr hb hf hpre
  have hstep : (if commit.length = 0 then
        match getHeadCommit env with
        | (.error e, tr1) => (Except.error e, tr1)
        | (.ok c, tr1) => (Except.ok (c, true), tr1)
      else (Except.ok (commit, false), ([] : List Ev))) =
      (Except.error e, tr1) := by
    rw [if_pos hc, hgh]
  unfold FetchLatest
  rw [hpf, hstep]

/-- **C2** — Retry protocol of `FetchLatest`: the archive export is
attempted first; on success the call succeeds with no (further) fetch and
a single archive attempt; when the commit was resolved this request
(`haveFetched`), an archive failure is terminal with no further attempt;
when a commit was supplied, an archive failure triggers exactly one
`fetchUpstream` (whose failure is terminal) and exactly one retried
`sendDownstream` whose result is final — and in every case at most one
fetch and at most two archive attempts occur. -/
theorem FetchLatest_retry_protocol
    (repo branch commit tree format cacheDir outputDir : String) (env : Env)
    (hr : repo.length ≠ 0) (hb : branch.length ≠ 0)
    (hf : format = "tar" ∨ format = "tgz") (hpre : preflightOk env)
    (hcr : outputDir.length = 0 ∨ env.createErr = none) :
    ((FetchLatest repo branch commit tree format cacheDir outputDir env).trace.count Ev.fetch ≤ 1 ∧
     (FetchLatest repo branch commit tree format cacheDir outputDir env).trace.count Ev.archiveCall ≤ 2) ∧
    (commit.length ≠ 0 → (sendDownstream (env.archive 0)).1 = .ok () →
      (FetchLatest repo branch commit tree format cacheDir outputDir env).res = .ok () ∧
      (FetchLatest repo branch commit tree format cacheDir outputDir env).trace.count Ev.fetch = 0 ∧
      (FetchLatest repo branch commit tree format cacheDir outputDir env).trace.count Ev.archiveCall = 1) ∧
    (commit.length = 0 → env.fetchErr = none → ∀ s, env.revParseRes = .ok s →
      (sendDownstream (env.archive 0)).1 = .ok () →
      (FetchLatest repo branch commit tree format cacheDir outputDir env).res = .ok () ∧
      (FetchLatest repo branch commit tree format cacheDir outputDir env).trace.count Ev.fetch = 1 ∧
      (FetchLatest repo branch commit tree format cacheDir outputDir env).trace.count Ev.archiveCall = 1) ∧
    (commit.length = 0 → env.fetchErr = none → ∀ s, env.revParseRes = .ok s →
      ∀ e0, (sendDownstream (env.archive 0)).1 = .error e0 →
      (FetchLatest repo branch commit tree format cacheDir outputDir env).res = .error e0 ∧
      (FetchLatest repo branch commit tree format cacheDir outputDir env).trace.count Ev.fetch = 1 ∧
      (FetchLatest repo branch commit tree format cacheDir outputDir env).trace.count Ev.archiveCall = 1) ∧
    (commit.length ≠ 0 → ∀ e0, (sendDownstream (env.archive 0)).1 = .error e0 →
      ∀ fe, env.fetchErr = some fe →
      (FetchLatest repo branch commit tree format cacheDir outputDir env).res = .error (.fetchFail fe) ∧
      (FetchLatest repo branch commit tree format cacheDir outputDir env).trace.count Ev.fetch = 1 ∧
      (FetchLatest repo branch commit tree format cacheDir outputDir env).trace.count Ev.archiveCall = 1) ∧
    (commit.length ≠ 0 → ∀ e0, (sendDownstream (env.archive 0)).1 = .error e0 →
      env.fetchErr = none →
      (FetchLatest repo branch commit tree format cacheDir outputDir env).res =
        (sendDownstream (env.archive 1)).1 ∧
      (FetchLatest repo branch commit tree format cacheDir outputDir env).trace.count Ev.fetch = 1 ∧
      (FetchLatest repo branch commit tree format cacheDir outputDir env).trace.count Ev.archiveCall = 2) := by
  have hp1 := (preflightTrace_counts env).1
  have hp2 := (preflightTrace_counts env).2
  refine ⟨?_, ?_, ?_, ?_, ?_, ?_⟩
  · -- global bounds: at most one fetch, at most two archive attempts
    by_cases hc : commit.length = 0
    · rcases hfe : env.fetchErr with _ | e
      · rcases hrv : env.revParseRes with e' | s
        · rw [FetchLatest_eq_resolve_fails repo branch commit tree format cacheDir outputDir env
            hr hb hf hpre hc _ _ ((getHeadCommit_spec env).2.2.1 e' hfe hrv)]
          constructor <;> simp +decide [List.count_append, List.count_cons, hp1, hp2]
        · rw [FetchLatest_eq_commit_resolved repo branch commit tree format cacheDir outputDir env
            hr hb hf hpre hc hfe s hrv]
          have ha0 := (archivePhase_trace_counts true env).2.2 rfl
          have ha2 := (archivePhase_trace_counts true env).2.1
          by_cases ho : outputDir.length = 0
          · rw [if_pos ho]
            constructor <;>
              simp +decide [List.count_append, List.count_cons, hp1, hp2, ha0] <;> omega
          · rw [if_neg ho]
            rcases hcr with hcr | hcr
            · exact absurd hcr ho
            · rw [hcr]
              constructor <;>
                simp +decide [List.count_append, List.count_cons, hp1, hp2, ha0] <;> omega
      · rw [FetchLatest_eq_resolve_fails repo branch commit tree format cacheDir outputDir env
          hr hb hf hpre hc _ _ ((getHeadCommit_spec env).2.1 e hfe)]
        constructor <;> simp +decide [List.count_append, List.count_cons, hp1, hp2]
    · rw [FetchLatest_eq_commit_given repo branch commit tree format cacheDir outputDir env
        hr hb hf hpre hc]
      have ha1 := (archivePhase_trace_counts false env).1
      have ha2 := (archivePhase_trace_counts false env).2.1
      by_cases ho : outputDir.length = 0
      · rw [if_pos ho]
        constructor <;>
          simp +decide [List.count_append, List.count_cons, hp1, hp2] <;> omega
      · rw [if_neg ho]
        rcases hcr with hcr | hcr
        · exact absurd hcr ho
        · rw [hcr]
          constructor <;>
            simp +decide [List.count_append, List.count_cons, hp1, hp2] <;> omega
  · -- commit supplied, first archive attempt succeeds: no fetch at all
    intro hc hok
    rw [FetchLatest_eq_commit_given repo branch commit tree format cacheDir outputDir env
      hr hb hf hpre hc, archivePhase_first_ok false env hok]
    by_cases ho : outputDir.length = 0
    · rw [if_pos ho]
      exact ⟨rfl, by simp +decide [List.count_append, List.count_cons, hp1, hp2],
        by simp +decide [List.count_append, List.count_cons, hp1, hp2]⟩
    · rw [if_neg ho]
      rcases hcr with hcr | hcr
      · exact absurd hcr ho
      · rw [hcr]
        exact ⟨rfl, by simp +decide [List.count_append, List.count_cons, hp1, hp2],
          by simp +decide [List.count_append, List.count_cons, hp1, hp2]⟩
  · -- commit resolved this request, archive succeeds: just the one fetch
    intro hc hfe s hrv hok
    rw [FetchLatest_eq_commit_resolved repo branch commit tree format cacheDir outputDir env
      hr hb hf hpre hc hfe s hrv, archivePhase_first_ok true env hok]
    by_cases ho : outputDir.length = 0
    · rw [if_pos ho]
      exact ⟨rfl, by simp +decide [List.count_append, List.count_cons, hp1, hp2],
        by simp +decide [List.count_append, List.count_cons, hp1, hp2]⟩
    · rw [if_neg ho]
      rcases hcr with hcr | hcr
      · exact absurd hcr ho
      · rw [hcr]
        exact ⟨rfl, by simp +decide [List.count_append, List.count_cons, hp1, hp2],
          by simp +decide [List.count_append, List.count_cons, hp1, hp2]⟩
  · -- commit resolved this request, archive fails: terminal, no retry
    intro hc hfe s hrv e0 herr
    rw [FetchLatest_eq_commit_resolved repo branch commit tree format cacheDir outputDir env
      hr hb hf hpre hc hfe s hrv, archivePhase_haveFetched_err env e0 herr]
    by_cases ho : outputDir.length = 0
    · rw [if_pos ho]
      exact ⟨rfl, by simp +decide [List.count_append, List.count_cons, hp1, hp2],
        by simp +decide [List.count_append, List.count_cons, hp1, hp2]⟩
    · rw [if_neg ho]
      rcases hcr with hcr | hcr
      · exact absurd hcr ho
      · rw [hcr]
        exact ⟨rfl, by simp +decide [List.count_append, List.count_cons, hp1, hp2],
          by simp +decide [List.count_append, List.count_cons, hp1, hp2]⟩
  · -- commit supplied, archive fails, fetch fails: terminal fetch error
    intro hc e0 herr fe hfe
    rw [FetchLatest_eq_commit_given repo branch commit tree format cacheDir outputDir env
      hr hb hf hpre hc, archivePhase_fetch_fails env e0 fe herr hfe]
    by_cases ho : outputDir.length = 0
    · rw [if_pos ho]
      exact ⟨rfl, by simp +decide [List.count_append, List.count_cons, hp1, hp2],
        by simp +decide [List.count_append, List.count_cons, hp1, hp2]⟩
    · rw [if_neg ho]
      rcases hcr with hcr | hcr
      · exact absurd hcr ho
      · rw [hcr]
        exact ⟨rfl, by simp +decide [List.count_append, List.count_cons, hp1, hp2],
          by simp +decide [List.count_append, List.count_cons, hp1, hp2]⟩
  · -- commit supplied, archive fails, fetch succeeds: one retry, final
    intro hc e0 herr hfe
    rw [FetchLatest_eq_commit_given repo branch commit tree format cacheDir outputDir env
      hr hb hf hpre hc, archivePhase_retry env e0 herr hfe]
    by_cases ho : outputDir.length = 0
    · rw [if_pos ho]
      exact ⟨rfl, by simp +decide [List.count_append, List.count_cons, hp1, hp2],
        by simp +decide [List.count_append, List.count_cons, hp1, hp2]⟩
    · rw [if_neg ho]
      rcases hcr with hcr | hcr
      · exact absurd hcr ho
      · rw [hcr]
        exact ⟨rfl, by simp +decide [List.count_append, List.count_cons, hp1, hp2],
          by simp +decide [List.count_append, List.count_cons, hp1, hp2]⟩

/-- A concrete environment whose first archive attempt fails with exit
status 1 and whose second succeeds; everything else succeeds. -/
def envRetryW : Env :=
  ⟨.found, none, none, none, .ok "c",
   fun n => if n = 0 then ⟨none, [], none, some 1⟩ else ⟨none, [], none, none⟩, none⟩

/-- A concrete environment in which every operation succeeds; each
archive run yields one entry with one content byte. -/
def envOkW : Env :=
  ⟨.found, none, none, none, .ok "c123\n",
   fun _ => ⟨none, [⟨⟨"f", 1, 5⟩, [42]⟩], none, none⟩, none⟩

/-- Witness for C2: on the retry path (commit supplied, first archive
attempt fails, fetch succeeds) the retried attempt's result is final and
the trace shows exactly one fetch and exactly two archive attempts. -/
theorem FetchLatest_retry_witness :
    (FetchLatest "r" "b" "c0" "" "tar" "/cache" "" envRetryW).res =
        (sendDownstream (envRetryW.archive 1)).1 ∧
      (FetchLatest "r" "b" "c0" "" "tar" "/cache" "" envRetryW).trace.count Ev.fetch = 1 ∧
      (FetchLatest "r" "b" "c0" "" "tar" "/cache" "" envRetryW).trace.count Ev.archiveCall = 2 :=
  (FetchLatest_retry_protocol "r" "b" "c0" "" "tar" "/cache" "" envRetryW
      (by decide) (by decide) (Or.inl rfl) (Or.inl rfl) (Or.inl rfl)).2.2.2.2.2
    (by decide) (.exitFail 1) (by decide) rfl

/-- **C8** — Output sink selection: with an empty `outputDir` the archive
bytes go to the caller-supplied stream and no file is created and nothing
is announced — both when a commit was supplied and when it was resolved
this request (the server mode), and vacuously so when the resolution
fails before any sink is opened; with a non-empty `outputDir` a file
named `<commit>.<format>` is created under it (with the resolved commit
when none was supplied), the archive bytes go to that file, its path is
announced on the stdout side channel, and nothing is written to the
caller's stream. -/
theorem FetchLatest_sink_selection
    (repo branch commit tree format cacheDir outputDir : String) (env : Env)
    (hr : repo.length ≠ 0) (hb : branch.length ≠ 0)
    (hf : format = "tar" ∨ format = "tgz") (hpre : preflightOk env) :
    (commit.length ≠ 0 → outputDir.length = 0 →
      (FetchLatest repo branch commit tree format cacheDir outputDir env).fileOut = none ∧
      (FetchLatest repo branch commit tree format cacheDir outputDir env).stdout = [] ∧
      (FetchLatest repo branch commit tree format cacheDir outputDir env).streamOut =
        sinkBytes format (archivePhase false env).2.2) ∧
    (commit.length ≠ 0 → outputDir.length ≠ 0 → env.createErr = none →
      (FetchLatest repo branch commit tree format cacheDir outputDir env).fileOut =
        some (joinPath outputDir (commit ++ "." ++ format),
              sinkBytes format (archivePhase false env).2.2) ∧
      (FetchLatest repo branch commit tree format cacheDir outputDir env).stdout =
        [joinPath outputDir (commit ++ "." ++ format)] ∧
      (FetchLatest repo branch commit tree format cacheDir outputDir env).streamOut = []) ∧
    (commit.length = 0 → env.fetchErr = none → ∀ s, env.revParseRes = .ok s →
      outputDir.length ≠ 0 → env.createErr = none →
      (FetchLatest repo branch commit tree format cacheDir outputDir env).fileOut =
        some (joinPath outputDir (trimSpace s ++ "." ++ format),
              sinkBytes format (archivePhase true env).2.2) ∧
      (FetchLatest repo branch commit tree format cacheDir outputDir env).stdout =
        [joinPath outputDir (trimSpace s ++ "." ++ format)] ∧
      (FetchLatest repo branch commit tree format cacheDir outputDir env).streamOut = []) ∧
    (commit.length = 0 → env.fetchErr = none → ∀ s, env.revParseRes = .ok s →
      outputDir.length = 0 →
      (FetchLatest repo branch commit tree format cacheDir outputDir env).fileOut = none ∧
      (FetchLatest repo branch commit tree format cacheDir outputDir env).stdout = [] ∧
      (FetchLatest repo branch commit tree format cacheDir outputDir env).streamOut =
        sinkBytes format (archivePhase true env).2.2) ∧
    (commit.length = 0 → ∀ e tr1, getHeadCommit env = (.error e, tr1) →
      (FetchLatest repo branch commit tree format cacheDir outputDir env).fileOut = none ∧
      (FetchLatest repo branch commit tree format cacheDir outputDir env).stdout = [] ∧
      (FetchLatest repo branch commit tree format cacheDir outputDir env).streamOut = []) := by
  refine ⟨?_, ?_, ?_, ?_, ?_⟩
  · intro hc ho
    rw [FetchLatest_eq_commit_given repo branch commit tree format cacheDir outputDir env
      hr hb hf hpre hc, if_pos ho]
    exact ⟨rfl, rfl, rfl⟩
  · intro hc ho hce
    rw [FetchLatest_eq_commit_given repo branch commit tree format cacheDir outputDir env
      hr hb hf hpre hc, if_neg ho, hce]
    exact ⟨rfl, rfl, rfl⟩
  · intro hc hfe s hrv ho hce
    rw [FetchLatest_eq_commit_resolved repo branch commit tree format cacheDir outputDir env
      hr hb hf hpre hc hfe s hrv, if_neg ho, hce]
    exact ⟨rfl, rfl, rfl⟩
  · intro hc hfe s hrv ho
    rw [FetchLatest_eq_commit_resolved repo branch commit tree format cacheDir outputDir env
      hr hb hf hpre hc hfe s hrv, if_pos ho]
    exact ⟨rfl, rfl, rfl⟩
  · intro hc e tr1 hgh
    rw [FetchLatest_eq_resolve_fails repo branch commit tree format cacheDir outputDir env
      hr hb hf hpre hc e tr1 hgh]
    exact ⟨rfl, rfl, rfl⟩

/-- Witness for C8: with output directory `/out`, commit `c0` and format
`tar`, the file `/out/c0.tar` is created with the archive bytes, its path
is announced, and the stream stays empty. -/
theorem FetchLatest_sink_selection_witness :
    (FetchLatest "r" "b" "c0" "" "tar" "/cache" "/out" envOkW).fileOut =
        some (joinPath "/out" ("c0" ++ "." ++ "tar"),
              sinkBytes "tar" (archivePhase false envOkW).2.2) ∧
      (FetchLatest "r" "b" "c0" "" "tar" "/cache" "/out" envOkW).stdout =
        [joinPath "/out" ("c0" ++ "." ++ "tar")] ∧
      (FetchLatest "r" "b" "c0" "" "tar" "/cache" "/out" envOkW).streamOut = [] :=
  (FetchLatest_sink_selection "r" "b" "c0" "" "tar" "/cache" "/out" envOkW
      (by decide) (by decide) (Or.inl rfl) (Or.inl rfl)).2.1
    (by decide) (by decide) rfl

theorem copyEntries_trailer :
    ∀ l : List RawEntry, ∀ re we : Option Nat,
      (∀ e ∈ l, e.header.size ≤ e.content.length) →
      ∃ p, (copyEntries l re we).2 = p ++ tarTrailer := by
  intro l
  induction l with
  | nil => intro re we _; exact ⟨[], rfl⟩
  | cons e1 t1 ih =>
    intro re we hcomp
    have h1 : e1.header.size ≤ e1.content.length := hcomp e1 (List.mem_cons_self _ _)
    have hs : ¬ e1.content.length < e1.header.size := Nat.not_lt.mpr h1
    have hmin : min e1.content.length e1.header.size = e1.header.size :=
      Nat.min_eq_right h1
    obtain ⟨p, hp⟩ := ih re we fun e he => hcomp e (List.mem_cons_of_mem _ he)
    refine ⟨serializeHeader { e1.header with modTime := 0 } ++
      e1.content.take e1.header.size ++ p, ?_⟩
    simp [copyEntries, hs, hmin, hp]

/-- Once the archive subprocess has started, if every entry's declared
size was available (so the loop never dies mid-entry), the deferred
`tarOut.Close()` flushes the end-of-archive trailer on the exit path —
whether that path is EOF/`Wait` success, a nonzero exit status, or a
reader error — so the written bytes end with the trailer. -/
theorem sendDownstream_trailer (run : ArchiveRun) (h : run.startErr = none)
    (hcomp : ∀ e ∈ run.entries, e.header.size ≤ e.content.length) :
    ∃ p, (sendDownstream run).2 = p ++ tarTrailer := by
  unfold sendDownstream
  rw [h]
  exact copyEntries_trailer _ _ _ hcomp

/-- A concrete environment whose first archive attempt dies in a short
copy (one content byte available of two declared) and whose second
succeeds. -/
def envShortW : Env :=
  ⟨.found, none, none, none, .ok "c",
   fun n => if n = 0 then ⟨none, [⟨⟨"f", 2, 0⟩, [9]⟩], none, none⟩
            else ⟨none, [], none, none⟩, none⟩

set_option maxRecDepth 8192 in
/-- Counterexample for C9 as stated: on a retry triggered by a short
copy, the failed first attempt's residue remains in the stream and the
retry is appended, but that residue does NOT end with the end-of-archive
trailer — the deferred `tarOut.Close()` cannot flush an incomplete
entry. -/
theorem FetchLatest_retry_residue_counterexample :
    (FetchLatest "r" "b" "c0" "" "tar" "/cache" "" envShortW).streamOut =
        (sendDownstream (envShortW.archive 0)).2 ++
          (sendDownstream (envShortW.archive 1)).2 ∧
      (sendDownstream (envShortW.archive 0)).1 = .error .shortCopy ∧
      ¬ ∃ p, (sendDownstream (envShortW.archive 0)).2 = p ++ tarTrailer := by
  refine ⟨by decide, by decide, ?_⟩
  rintro ⟨p, hp⟩
  have hl := congrArg List.length hp
  have h5 : (sendDownstream (envShortW.archive 0)).2.length = 5 := by decide
  rw [h5] at hl
  simp only [List.length_append, tarTrailer, List.length_replicate] at hl
  omega

/-- **C9** (amended) — Implicit: the sink is not reset between attempts.
On the retry path the bytes of the failed first attempt remain in the
output and the retried archive stream is appended after them on the same
writer, even when the retry succeeds; and when every entry of the first
attempt was copied in full (exit-status or reader failures, not a
mid-entry short copy), that residue ends in the tar trailer flushed by
the deferred `tarOut.Close()`. -/
theorem FetchLatest_retry_residue
    (repo branch commit tree format cacheDir : String) (env : Env)
    (hr : repo.length ≠ 0) (hb : branch.length ≠ 0)
    (hf : format = "tar" ∨ format = "tgz") (hpre : preflightOk env)
    (hc : commit.length ≠ 0)
    (e0 : Err) (herr : (sendDownstream (env.archive 0)).1 = .error e0)
    (hfe : env.fetchErr = none)
    (hstart : (env.archive 0).startErr = none)
    (hcomp : ∀ e ∈ (env.archive 0).entries, e.header.size ≤ e.content.length) :
    (FetchLatest repo branch commit tree format cacheDir "" env).res =
      (sendDownstream (env.archive 1)).1 ∧
    (FetchLatest repo branch commit tree format cacheDir "" env).streamOut =
      sinkBytes format ((sendDownstream (env.archive 0)).2 ++ (sendDownstream (env.archive 1)).2) ∧
    ∃ p, (sendDownstream (env.archive 0)).2 = p ++ tarTrailer := by
  rw [FetchLatest_eq_commit_given repo branch commit tree format cacheDir "" env
    hr hb hf hpre hc, archivePhase_retry env e0 herr hfe,
    if_pos (show ("" : String).length = 0 by decide)]
  exact ⟨rfl, rfl, sendDownstream_trailer _ hstart hcomp⟩

/-- Witness for C9: a concrete retry triggered by a nonzero exit status
(all entries complete) leaves the failed first attempt's
trailer-terminated bytes in the stream, followed by the full retried
archive. -/
theorem FetchLatest_retry_residue_witness :
    (FetchLatest "r" "b" "c0" "" "tar" "/cache" "" envRetryW).res =
        (sendDownstream (envRetryW.archive 1)).1 ∧
      (FetchLatest "r" "b" "c0" "" "tar" "/cache" "" envRetryW).streamOut =
        sinkBytes "tar" ((sendDownstream (envRetryW.archive 0)).2 ++
          (sendDownstream (envRetryW.archive 1)).2) ∧
      ∃ p, (sendDownstream (envRetryW.archive 0)).2 = p ++ tarTrailer :=
  FetchLatest_retry_residue "r" "b" "c0" "" "tar" "/cache" envRetryW
    (by decide) (by decide) (Or.inl rfl) (Or.inl rfl) (by decide)
    (.exitFail 1) (by decide) rfl rfl (by decide)

end Gitcache
